import Mathlib

/-!
Verification development for the vetting-bot poll-resolution engine
(`vetting_bot/timer.py` and `vetting_bot/bot_commands.py`), as a shallow
embedding: the stateful Python code becomes explicit state passing, the
Matrix network environment becomes explicit input data, and Python
exceptions become `Except` values.
-/

namespace VettingBot

/-- The Matrix event type string of poll response events
(`"org.matrix.msc3381.poll.response"` in `timer.py`). -/
def respType : String := "org.matrix.msc3381.poll.response"

/-- The `"m.relates_to"` object of a poll response event's content.
Its `"event_id"` key may be missing (`none`). -/
structure RelatesTo where
  rel_event_id : Option String
deriving Repr, DecidableEq

/-- The `"org.matrix.msc3381.poll.response"` object of a response
event's content. Its `"answers"` key may be missing (`none`), and when
present holds a (possibly empty) list of answer id strings. -/
structure PollResponseBody where
  answers : Option (List String)
deriving Repr, DecidableEq

/-- The `content` dict of an event, restricted to the keys the tally
reads; each key may be missing. -/
structure EventContent where
  relates_to : Option RelatesTo
  poll_response : Option PollResponseBody
deriving Repr, DecidableEq

/-- A history event as the tally loop in `Timer._end_poll` sees it:
`isUnknown` models `isinstance(event, UnknownEvent)`, `type` is the
event type string, and `content` is `event.source.get("content")`
(`none` when the `"content"` key is absent). -/
structure MatrixEvent where
  event_id : String
  sender : String
  type : String
  isUnknown : Bool
  content : Option EventContent
deriving Repr, DecidableEq

/-- A Python exception escaping the `except KeyError` handler of the
counting loop: `typeError` for subscripting a `None` content,
`indexError` for `answers[0]` on an empty list. -/
inductive TallyCrash
  | typeError
  | indexError
deriving Repr, DecidableEq

/-- The mutable state of the counting loop in `Timer._end_poll`:
the `vote_count` dict (keys `"yes"`, `"no"`, `"blank"`) and the
`users_voted` set (modelled as a list, queried by membership). -/
structure TallyState where
  yes : Nat
  no : Nat
  blank : Nat
  users_voted : List String
deriving Repr, DecidableEq

/-- The initial tally state: all counts zero, no sender counted. -/
def initTally : TallyState := ⟨0, 0, 0, []⟩

/-- The statement `vote_count[answer] += 1`: increments the entry for
a known answer; for any other answer string the dict lookup raises
`KeyError`, which the surrounding handler swallows, leaving the counts
unchanged (the sender was already added to `users_voted`). -/
def addVote (st : TallyState) (answer : String) : TallyState :=
  if answer = "yes" then { st with yes := st.yes + 1 }
  else if answer = "no" then { st with no := st.no + 1 }
  else if answer = "blank" then { st with blank := st.blank + 1 }
  else st

/-- One iteration of the `for event in message_resp.chunk` loop of
`Timer._end_poll` (lines 113-135 of `timer.py`): skip non-`UnknownEvent`
events and wrong event types; then, inside the `try`, read the relation
target (missing keys raise `KeyError`, caught and skipped), skip
responses relating to another poll, read `answers[0]` (missing keys
caught, but an empty list raises an uncaught `IndexError`, and a `None`
content raises an uncaught `TypeError`), skip already-counted senders,
and finally mark the sender and count the vote. -/
def processEvent (pid : String) (st : TallyState) (e : MatrixEvent) :
    Except TallyCrash TallyState :=
  if !e.isUnknown then .ok st
  else if e.type ≠ respType then .ok st
  else match e.content with
  | none => .error .typeError
  | some c =>
    match c.relates_to with
    | none => .ok st
    | some rel =>
      match rel.rel_event_id with
      | none => .ok st
      | some rid =>
        if rid ≠ pid then .ok st
        else match c.poll_response with
        | none => .ok st
        | some body =>
          match body.answers with
          | none => .ok st
          | some [] => .error .indexError
          | some (answer :: _) =>
            if e.sender ∈ st.users_voted then .ok st
            else .ok (addVote { st with users_voted := e.sender :: st.users_voted } answer)

/-- The counting loop over one fetched page (`message_resp.chunk`),
threading the tally state; an uncaught exception aborts the loop. -/
def processChunk (pid : String) (st : TallyState) :
    List MatrixEvent → Except TallyCrash TallyState
  | [] => .ok st
  | e :: es =>
    match processEvent pid st e with
    | .error c => .error c
    | .ok st' => processChunk pid st' es

/-- The answer a response event contributes if it survives every skip
check of the loop body: `some a` exactly when the event is an
`UnknownEvent` of the response type whose content relates to `pid` and
whose answers list is present and nonempty with head `a`. -/
def qualAnswer (pid : String) (e : MatrixEvent) : Option String :=
  if !e.isUnknown then none
  else if e.type ≠ respType then none
  else match e.content with
  | none => none
  | some c =>
    match c.relates_to with
    | none => none
    | some rel =>
      match rel.rel_event_id with
      | none => none
      | some rid =>
        if rid ≠ pid then none
        else match c.poll_response with
        | none => none
        | some body =>
          match body.answers with
          | none => none
          | some [] => none
          | some (answer :: _) => some answer

/-- An event is a qualifying response for poll `pid` if it passes every
skip check (so it either marks its sender or is discarded as a
duplicate). -/
def qualifies (pid : String) (e : MatrixEvent) : Bool :=
  (qualAnswer pid e).isSome

/-- The exception (if any) processing this event raises past the
`except KeyError` handler; independent of the tally state. -/
def eventCrash (pid : String) (e : MatrixEvent) : Option TallyCrash :=
  if !e.isUnknown then none
  else if e.type ≠ respType then none
  else match e.content with
  | none => some .typeError
  | some c =>
    match c.relates_to with
    | none => none
    | some rel =>
      match rel.rel_event_id with
      | none => none
      | some rid =>
        if rid ≠ pid then none
        else match c.poll_response with
        | none => none
        | some body =>
          match body.answers with
          | none => none
          | some [] => some .indexError
          | some (_ :: _) => none

/-- A page of events is processed without an uncaught exception iff no
event in it crashes. -/
def chunkOk (pid : String) (es : List MatrixEvent) : Bool :=
  es.all (fun e => (eventCrash pid e).isNone)

/-- The seen-set pass that §4.4 step 4 of the spec describes: walk the
events in scan order, keep the first qualifying response per sender as
a `(sender, answer)` pair, and discard later (older) responses from
senders already in `seen`. -/
def firstVotes (pid : String) (seen : List String) :
    List MatrixEvent → List (String × String)
  | [] => []
  | e :: es =>
    match qualAnswer pid e with
    | none => firstVotes pid seen es
    | some a =>
      if e.sender ∈ seen then firstVotes pid seen es
      else (e.sender, a) :: firstVotes pid (e.sender :: seen) es

/-- The first qualifying response of sender `s` in scan order,
projected to its answer; `none` when `s` never responded to this
poll. -/
def firstAnswer (pid : String) (events : List MatrixEvent) (s : String) :
    Option String :=
  (events.find? (fun e => qualifies pid e && e.sender == s)).bind (qualAnswer pid)

/-- Number of distinct senders whose first (scan-order, i.e. most
recent) qualifying response to poll `pid` selected answer `a` — the
count the spec's testable property asks for. -/
def specCount (pid a : String) (events : List MatrixEvent) : Nat :=
  ((events.map (·.sender)).toFinset.filter
    (fun s => firstAnswer pid events s = some a)).card

/-- The result of one `room_messages` call: either a
`RoomMessagesError` or a page of events in reverse-chronological
order. -/
inductive PageResult
  | fetchError
  | page (chunk : List MatrixEvent)
deriving Repr, DecidableEq

/-- How the paginated scan of `Timer._end_poll` ended: a failed page
fetch (the code sends "Unable to gather votes." and returns), an
uncaught exception in the counting loop (the task dies), or normal
completion (poll event found, or page cap reached, or the environment
ran out of pages). -/
inductive ScanOutcome
  | fetchFailed
  | crashed (c : TallyCrash)
  | completed (st : TallyState)
deriving Repr, DecidableEq

/-- The observable result of the scan: its outcome, the number of page
fetches performed, and the number of events contained in the
successfully fetched pages. -/
structure ScanResult where
  outcome : ScanOutcome
  fetches : Nat
  inspected : Nat
deriving Repr, DecidableEq

/-- The `for _ in range(0, 20)` pagination loop of `Timer._end_poll`
(lines 93-139 of `timer.py`): each iteration fetches one page (the
environment list `pages` gives the successive responses), aborts on a
fetch error, counts the page's votes (an uncaught exception kills the
task), and breaks after counting when the page contains the event
whose id is `pid`. -/
def scanLoop (pid : String) (st : TallyState) :
    Nat → List PageResult → ScanResult
  | 0, _ => ⟨.completed st, 0, 0⟩
  | _ + 1, [] => ⟨.completed st, 0, 0⟩
  | n + 1, p :: rest =>
    match p with
    | .fetchError => ⟨.fetchFailed, 1, 0⟩
    | .page chunk =>
      match processChunk pid st chunk with
      | .error c => ⟨.crashed c, 1, chunk.length⟩
      | .ok st' =>
        if chunk.any (fun e => e.event_id == pid) then
          ⟨.completed st', 1, chunk.length⟩
        else
          let r := scanLoop pid st' n rest
          ⟨r.outcome, r.fetches + 1, r.inspected + chunk.length⟩

/-- The configuration values the poll-resolution engine consumes
(`Config.voting_time`, `Config.min_yes_votes`, `Config.max_no_votes`,
all Python ints). -/
structure VettingConfig where
  voting_time : Int
  min_yes_votes : Int
  max_no_votes : Int
deriving Repr, DecidableEq

/-- The decision expression of `Timer._end_poll` (lines 146-149):
`vote_count["yes"] >= min_yes_votes and vote_count["no"] <=
max_no_votes`. -/
def decisionOf (cfg : VettingConfig) (yesCount noCount : Nat) : Bool :=
  cfg.min_yes_votes ≤ (yesCount : Int) && (noCount : Int) ≤ cfg.max_no_votes

/-- The environment of one `_end_poll` run: whether sending the poll
end event fails, the successive `room_messages` responses, and the
result of sending the decision message (`some eid` for a
`RoomSendResponse` carrying that event id, `none` for a failure). -/
structure EndPollEnv where
  pollEndFails : Bool
  pages : List PageResult
  decisionSendId : Option String
deriving Repr, DecidableEq

/-- The observable effects of one `_end_poll` run. `decisionAttempt`
is `some (st, d)` when the tally completed with state `st` and the
decision message (with decision `d`) was composed and its send
attempted; `dbUpdate = some eid` records the final
`UPDATE vetting SET vote_ended = 1, decision_event_id = eid`. -/
structure EndPollEffects where
  fetches : Nat
  sentUnableText : Bool
  crashed : Bool
  decisionAttempt : Option (TallyState × Bool)
  reacted : Bool
  dbUpdate : Option String
deriving Repr, DecidableEq

/-- `Timer._end_poll` (lines 57-184 of `timer.py`): send the poll end
event (return on error), scan up to 20 pages tallying votes, compute
the decision, publish the result message (return on failure, before
reacting and before the DB update), react with "confirm" only when the
decision is positive, and finally mark the case ended in the
database. -/
def endPoll (cfg : VettingConfig) (pid : String) (env : EndPollEnv) :
    EndPollEffects :=
  if env.pollEndFails then ⟨0, false, false, none, false, none⟩
  else
    let r := scanLoop pid initTally 20 env.pages
    match r.outcome with
    | .fetchFailed => ⟨r.fetches, true, false, none, false, none⟩
    | .crashed _ => ⟨r.fetches, false, true, none, false, none⟩
    | .completed st =>
      let d := decisionOf cfg st.yes st.no
      match env.decisionSendId with
      | none => ⟨r.fetches, false, false, some (st, d), false, none⟩
      | some eid => ⟨r.fetches, false, false, some (st, d), d, some eid⟩

/-- One row of the `vetting` table. The table's schema lives in the
repository's storage module (not among the given sources); the columns
are those named by the SQL statements in `timer.py` and
`bot_commands.py`, nullable except the key `mxid`, with `vote_ended`
read as a truthy flag. -/
structure VettingRow where
  mxid : String
  room_id : Option String
  poll_event_id : Option String
  voting_start_time : Option Int
  vote_ended : Bool
  decision_event_id : Option String
  vetting_create_time : Option Int
deriving Repr, DecidableEq

/-- A deferred poll closure registered by `Timer.wait_for_poll_end`:
the case's `mxid`, the poll event id passed along, and the instant
`start_time + voting_time` at which `_end_poll` fires. -/
structure Scheduled where
  mxid : String
  poll_event_id : Option String
  deadline : Int
deriving Repr, DecidableEq

/-- `Timer.start_all_timers` (lines 31-47 of `timer.py`): select the
rows with `voting_start_time IS NOT NULL`, skip those with a truthy
`vote_ended`, and schedule `wait_for_poll_end` for each remaining row;
the closure fires at `voting_start_time + voting_time`. -/
def start_all_timers (votingTime : Int) (db : List VettingRow) :
    List Scheduled :=
  ((db.filter (fun r => r.voting_start_time.isSome)).filter
      (fun r => !r.vote_ended)).map
    (fun r => ⟨r.mxid, r.poll_event_id, r.voting_start_time.getD 0 + votingTime⟩)

/-- The delay `asyncio.sleep` actually waits in `wait_for_poll_end`:
`asyncio.sleep` treats a zero or negative delay as an immediate
wake-up, modelled by clamping at 0. -/
def sleepDelay (timeLeft : Int) : Int := max timeLeft 0

/-- `Timer.wait_for_poll_end` (lines 49-55 of `timer.py`): the created
task sleeps `start_time + voting_time - now` and then runs
`_end_poll`; this gives the delay, after which the closure always
fires. -/
def waitForPollEndDelay (votingTime startTime now : Int) : Int :=
  sleepDelay (startTime + votingTime - now)

/-- The branch `Command._start_vetting` takes, in the order the code
checks: wrong room, missing argument, invalid user id, duplicate case
(carrying the stored `room_id` linked in the reply), room creation
failure, or successful creation. -/
inductive StartVettingOutcome
  | wrongRoom
  | usage
  | invalidUserId
  | duplicate (existingRoomId : Option String)
  | createFailed
  | created (roomId : String)
deriving Repr, DecidableEq

/-- Observable result of `Command._start_vetting`: which branch ran,
whether a reply text was sent to the invoking room, whether
`room_create` was called, and the vetting table afterwards. -/
structure StartVettingResult where
  outcome : StartVettingOutcome
  repliedToInvokingRoom : Bool
  roomCreateAttempted : Bool
  db : List VettingRow
deriving Repr, DecidableEq

/-- `Command._start_vetting` (lines 111-229 of `bot_commands.py`),
restricted to its control flow and store effects: guard the room and
the argument, validate the user id (`validate` stands for the
`validate_user_id` regex), report a duplicate when a row for the
candidate already exists (`SELECT room_id FROM vetting WHERE mxid=?`),
then create the room (`roomCreateResult = none` models a
`RoomCreateError`) and insert the new row. Every branch replies to the
invoking room. -/
def start_vetting (validate : String → Bool) (vettingRoomId invokingRoomId : String)
    (args : List String) (db : List VettingRow)
    (roomCreateResult : Option String) (now : Int) : StartVettingResult :=
  if invokingRoomId ≠ vettingRoomId then ⟨.wrongRoom, true, false, db⟩
  else match args with
  | [] => ⟨.usage, true, false, db⟩
  | candidate :: _ =>
    if !validate candidate then ⟨.invalidUserId, true, false, db⟩
    else match db.find? (fun r => r.mxid == candidate) with
    | some row => ⟨.duplicate row.room_id, true, false, db⟩
    | none =>
      match roomCreateResult with
      | none => ⟨.createFailed, true, true, db⟩
      | some newRoom =>
        ⟨.created newRoom, true, true,
          db ++ [⟨candidate, some newRoom, none, none, false, none, some now⟩]⟩

/-- Applying an `_end_poll` run's database effect to the stored cases:
no update leaves the table unchanged; `some eid` sets `vote_ended` and
`decision_event_id` on the case's row. -/
def applyDbUpdate (eff : EndPollEffects) (m : String) (db : List VettingRow) :
    List VettingRow :=
  match eff.dbUpdate with
  | none => db
  | some eid =>
    db.map (fun r =>
      if r.mxid = m then
        { r with vote_ended := true, decision_event_id := some eid }
      else r)

/-! ### Concrete fixtures (spec §8 scenarios) -/

/-- A well-formed poll response event for poll `"poll1"`. -/
def sampleResp (eid s a : String) : MatrixEvent :=
  ⟨eid, s, respType, true, some ⟨some ⟨some "poll1"⟩, some ⟨some [a]⟩⟩⟩

/-- The poll start event of poll `"poll1"` as it appears in history. -/
def samplePollStartEvent : MatrixEvent :=
  ⟨"poll1", "bot", "org.matrix.msc3381.poll.start", true, none⟩

/-- Scenario A responses: A, B, C vote yes; D votes no. -/
def scenarioAEvents : List MatrixEvent :=
  [sampleResp "e1" "A" "yes", sampleResp "e2" "B" "yes",
   sampleResp "e3" "C" "yes", sampleResp "e4" "D" "no"]

/-- The tally state scenario A produces. -/
def scenarioATally : TallyState := ⟨3, 1, 0, ["D", "C", "B", "A"]⟩

/-- Scenario A thresholds: `min_yes_votes = 3`, `max_no_votes = 1`. -/
def sampleConfig : VettingConfig := ⟨600, 3, 1⟩

/-- A one-page environment for scenario A ending at the poll start
event, with the decision message send succeeding. -/
def scenarioAEnv : EndPollEnv :=
  ⟨false, [.page (scenarioAEvents ++ [samplePollStartEvent])], some "dec1"⟩

/-- Scenario D environment: first page fetch succeeds, second fails. -/
def scenarioDEnv : EndPollEnv :=
  ⟨false, [.page [sampleResp "e1" "A" "yes"], .fetchError], some "dec1"⟩

/-- A response event relating to poll `"poll1"` whose `answers` field
is present but holds an empty list. -/
def emptyAnswersEvent : MatrixEvent :=
  ⟨"e9", "Z", respType, true, some ⟨some ⟨some "poll1"⟩, some ⟨some []⟩⟩⟩

/-- A response event relating to poll `"poll1"` whose response body
has no `answers` key. -/
def missingAnswersEvent : MatrixEvent :=
  ⟨"e8", "Y", respType, true, some ⟨some ⟨some "poll1"⟩, some ⟨none⟩⟩⟩

/-- A page response on which the scan proceeds to the next iteration:
a successful fetch whose counting raises no uncaught exception and
which does not contain the poll start event. -/
def cleanScanPage (pid : String) (p : PageResult) : Bool :=
  match p with
  | .fetchError => false
  | .page c => chunkOk pid c && !(c.any (fun e => e.event_id == pid))

/-- The first `k` page responses all let the scan continue. -/
def pagesCleanBefore (pid : String) (pages : List PageResult) (k : Nat) : Bool :=
  (pages.take k).all (cleanScanPage pid)

/-- A sample store: a pending case (poll started, vote not ended), a
case with no poll, and a closed case. -/
def sampleDb : List VettingRow :=
  [⟨"@p:x", some "!rp", some "pollP", some 100, false, none, some 5⟩,
   ⟨"@q:x", some "!rq", none, none, false, none, some 6⟩,
   ⟨"@r:x", some "!rr", some "pollR", some 50, true, some "decR", some 4⟩]

/-! ### Characterization lemmas for the per-event step -/

lemma addVote_users_voted (st : TallyState) (a : String) :
    (addVote st a).users_voted = st.users_voted := by
  unfold addVote
  split_ifs <;> rfl

lemma addVote_yes (st : TallyState) (a : String) :
    (addVote st a).yes = st.yes + (if a = "yes" then 1 else 0) := by
  unfold addVote
  split_ifs <;> simp_all

lemma addVote_no (st : TallyState) (a : String) :
    (addVote st a).no = st.no + (if a = "no" then 1 else 0) := by
  unfold addVote
  split_ifs <;> simp_all

lemma addVote_blank (st : TallyState) (a : String) :
    (addVote st a).blank = st.blank + (if a = "blank" then 1 else 0) := by
  unfold addVote
  split_ifs <;> simp_all

lemma processEvent_eq (pid : String) (st : TallyState) (e : MatrixEvent) :
    processEvent pid st e =
      (match eventCrash pid e with
      | some c => Except.error c
      | none =>
        match qualAnswer pid e with
        | none => Except.ok st
        | some a =>
          if e.sender ∈ st.users_voted then Except.ok st
          else Except.ok (addVote { st with users_voted := e.sender :: st.users_voted } a)) := by
  rcases e with ⟨eid, s, ty, unk, cont⟩
  cases unk
  · simp [processEvent, eventCrash, qualAnswer]
  · by_cases hty : ty = respType
    · rcases cont with _ | ⟨(_ | ⟨(_ | rid)⟩), pr⟩
      · simp [processEvent, eventCrash, qualAnswer, hty]
      · simp [processEvent, eventCrash, qualAnswer, hty]
      · simp [processEvent, eventCrash, qualAnswer, hty]
      · by_cases hrid : rid = pid
        · rcases pr with _ | ⟨(_ | (_ | ⟨a, as⟩))⟩
          · simp [processEvent, eventCrash, qualAnswer, hty, hrid]
          · simp [processEvent, eventCrash, qualAnswer, hty, hrid]
          · simp [processEvent, eventCrash, qualAnswer, hty, hrid]
          · simp [processEvent, eventCrash, qualAnswer, hty, hrid]
        · simp [processEvent, eventCrash, qualAnswer, hty, hrid]
    · simp [processEvent, eventCrash, qualAnswer, hty]

lemma eventCrash_of_qualAnswer (pid : String) (e : MatrixEvent) (a : String)
    (h : qualAnswer pid e = some a) : eventCrash pid e = none := by
  rcases e with ⟨eid, s, ty, unk, cont⟩
  cases unk
  · simp [qualAnswer] at h
  · by_cases hty : ty = respType
    · rcases cont with _ | ⟨(_ | ⟨(_ | rid)⟩), pr⟩
      · simp [qualAnswer, hty] at h
      · simp [eventCrash, hty]
      · simp [eventCrash, hty]
      · by_cases hrid : rid = pid
        · rcases pr with _ | ⟨(_ | (_ | ⟨a0, as⟩))⟩
          · simp [eventCrash, hty, hrid]
          · simp [eventCrash, hty, hrid]
          · simp [qualAnswer, hty, hrid] at h
          · simp [eventCrash, hty, hrid]
        · simp [eventCrash, hty, hrid]
    · simp [qualAnswer, hty] at h

lemma processEvent_of_crash (pid : String) (st : TallyState) (e : MatrixEvent)
    (c : TallyCrash) (h : eventCrash pid e = some c) :
    processEvent pid st e = .error c := by
  rw [processEvent_eq, h]

lemma processEvent_of_skip (pid : String) (st : TallyState) (e : MatrixEvent)
    (h1 : eventCrash pid e = none) (h2 : qualAnswer pid e = none) :
    processEvent pid st e = .ok st := by
  rw [processEvent_eq, h1, h2]

lemma processEvent_qual_seen (pid : String) (st : TallyState) (e : MatrixEvent)
    (a : String) (h : qualAnswer pid e = some a) (hs : e.sender ∈ st.users_voted) :
    processEvent pid st e = .ok st := by
  rw [processEvent_eq, eventCrash_of_qualAnswer pid e a h, h]
  simp [hs]

lemma processEvent_qual_new (pid : String) (st : TallyState) (e : MatrixEvent)
    (a : String) (h : qualAnswer pid e = some a) (hs : e.sender ∉ st.users_voted) :
    processEvent pid st e
      = .ok (addVote { st with users_voted := e.sender :: st.users_voted } a) := by
  rw [processEvent_eq, eventCrash_of_qualAnswer pid e a h, h]
  simp [hs]

/-! ### The counting loop computes the seen-set pass -/

lemma processChunk_firstVotes (pid : String) :
    ∀ (es : List MatrixEvent) (st st' : TallyState),
    processChunk pid st es = .ok st' →
    st'.yes = st.yes + (firstVotes pid st.users_voted es).countP (fun p => p.2 == "yes") ∧
    st'.no = st.no + (firstVotes pid st.users_voted es).countP (fun p => p.2 == "no") ∧
    st'.blank = st.blank + (firstVotes pid st.users_voted es).countP (fun p => p.2 == "blank") ∧
    st'.users_voted
      = ((firstVotes pid st.users_voted es).map Prod.fst).reverse ++ st.users_voted := by
  intro es
  induction es with
  | nil =>
    intro st st' h
    simp only [processChunk] at h
    cases h
    simp [firstVotes]
  | cons e es ih =>
    intro st st' h
    simp only [processChunk] at h
    rcases hc : eventCrash pid e with _ | c
    · rcases hq : qualAnswer pid e with _ | a
      · rw [processEvent_of_skip pid st e hc hq] at h
        have := ih st st' h
        simp only [firstVotes]
        rw [hq]
        exact this
      · by_cases hs : e.sender ∈ st.users_voted
        · rw [processEvent_qual_seen pid st e a hq hs] at h
          have := ih st st' h
          simp only [firstVotes]
          rw [hq]
          simp only [hs, if_pos]
          exact this
        · rw [processEvent_qual_new pid st e a hq hs] at h
          have hih := ih _ st' h
          rw [addVote_users_voted] at hih
          simp only [firstVotes]
          rw [hq]
          simp only [hs, if_neg, not_false_iff]
          obtain ⟨h1, h2, h3, h4⟩ := hih
          refine ⟨?_, ?_, ?_, ?_⟩
          · rw [h1, addVote_yes]
            simp only [List.countP_cons]
            by_cases hy : a = "yes" <;> simp [hy] <;> omega
          · rw [h2, addVote_no]
            simp only [List.countP_cons]
            by_cases hy : a = "no" <;> simp [hy] <;> omega
          · rw [h3, addVote_blank]
            simp only [List.countP_cons]
            by_cases hy : a = "blank" <;> simp [hy] <;> omega
          · rw [h4]
            simp [List.reverse_cons]
    · rw [processEvent_of_crash pid st e c hc] at h
      cases h

/-! ### First-answer lemmas -/

lemma firstAnswer_cons_skip (pid : String) (e : MatrixEvent) (es : List MatrixEvent)
    (hq : qualAnswer pid e = none) (s : String) :
    firstAnswer pid (e :: es) s = firstAnswer pid es s := by
  unfold firstAnswer
  rw [List.find?_cons_of_neg]
  simp [qualifies, hq]

lemma firstAnswer_cons_other (pid : String) (e : MatrixEvent) (es : List MatrixEvent)
    (s : String) (hs : e.sender ≠ s) :
    firstAnswer pid (e :: es) s = firstAnswer pid es s := by
  unfold firstAnswer
  rw [List.find?_cons_of_neg]
  simp [hs]

lemma firstAnswer_cons_self (pid : String) (e : MatrixEvent) (es : List MatrixEvent)
    (a : String) (hq : qualAnswer pid e = some a) :
    firstAnswer pid (e :: es) e.sender = some a := by
  unfold firstAnswer
  rw [List.find?_cons_of_pos]
  · simp [hq]
  · simp [qualifies, hq]

lemma firstAnswer_of_not_mem (pid : String) (es : List MatrixEvent) (s : String)
    (hs : s ∉ es.map (·.sender)) : firstAnswer pid es s = none := by
  unfold firstAnswer
  rw [List.find?_eq_none.2]
  · rfl
  · intro e he
    simp only [Bool.and_eq_true, beq_iff_eq, not_and]
    intro _ hsen
    exact hs (hsen ▸ List.mem_map_of_mem (·.sender) he)

/-! ### The seen-set pass counts distinct senders by their first answer -/

lemma firstVotes_countP (pid a : String) :
    ∀ (es : List MatrixEvent) (seen : List String),
    (firstVotes pid seen es).countP (fun p => p.2 == a)
      = ((es.map (·.sender)).toFinset.filter
          (fun s => s ∉ seen ∧ firstAnswer pid es s = some a)).card := by
  intro es
  induction es with
  | nil =>
    intro seen
    simp [firstVotes]
  | cons e es ih =>
    intro seen
    rcases hq : qualAnswer pid e with _ | a0
    · -- non-qualifying event: both sides ignore it
      simp only [firstVotes]
      rw [hq]
      rw [ih seen]
      simp only [List.map_cons, List.toFinset_cons]
      by_cases hmem : e.sender ∈ (es.map (·.sender)).toFinset
      · rw [Finset.insert_eq_self.2 hmem]
        congr 1
        apply Finset.filter_congr
        intro s _
        rw [firstAnswer_cons_skip pid e es hq s]
      · rw [Finset.filter_insert]
        rw [if_neg]
        · congr 1
          apply Finset.filter_congr
          intro s _
          rw [firstAnswer_cons_skip pid e es hq s]
        · rw [List.mem_toFinset] at hmem
          rw [firstAnswer_cons_skip pid e es hq, firstAnswer_of_not_mem pid es _ hmem]
          simp
    · by_cases hseen : e.sender ∈ seen
      · -- qualifying but sender already counted before this scan suffix
        simp only [firstVotes]
        rw [hq]
        simp only [hseen, if_pos]
        rw [ih seen]
        simp only [List.map_cons, List.toFinset_cons]
        have hcongr : ∀ t : Finset String,
            (t.filter (fun s => s ∉ seen ∧ firstAnswer pid (e :: es) s = some a))
              = (t.filter (fun s => s ∉ seen ∧ firstAnswer pid es s = some a)) := by
          intro t
          apply Finset.filter_congr
          intro s _
          by_cases hs : e.sender = s
          · subst hs
            simp [hseen]
          · rw [firstAnswer_cons_other pid e es s hs]
        rw [hcongr]
        rw [Finset.filter_insert]
        rw [if_neg]
        simp [hseen]
      · -- qualifying, new sender: it is this sender's first (most recent) vote
        simp only [firstVotes]
        rw [hq]
        simp only [hseen, if_neg, not_false_iff]
        rw [List.countP_cons, ih (e.sender :: seen)]
        simp only [List.map_cons, List.toFinset_cons]
        have hp2 : ∀ s, s ≠ e.sender →
            ((s ∉ seen ∧ firstAnswer pid (e :: es) s = some a)
              ↔ (s ∉ e.sender :: seen ∧ firstAnswer pid es s = some a)) := by
          intro s hs
          rw [firstAnswer_cons_other pid e es s (Ne.symm hs)]
          simp [List.mem_cons, hs]
        by_cases ha0 : a0 = a
        · subst ha0
          have hnot : e.sender
              ∉ (es.map (·.sender)).toFinset.filter
                (fun s => s ∉ e.sender :: seen ∧ firstAnswer pid es s = some a0) := by
            simp [List.mem_cons]
          have hsplit :
              ((insert e.sender (es.map (·.sender)).toFinset).filter
                (fun s => s ∉ seen ∧ firstAnswer pid (e :: es) s = some a0))
              = insert e.sender
                ((es.map (·.sender)).toFinset.filter
                  (fun s => s ∉ e.sender :: seen ∧ firstAnswer pid es s = some a0)) := by
            apply Finset.ext
            intro s
            simp only [Finset.mem_insert, Finset.mem_filter]
            constructor
            · rintro ⟨hmem | hmem, hcond⟩
              · exact Or.inl hmem
              · by_cases hse : s = e.sender
                · exact Or.inl hse
                · exact Or.inr ⟨hmem, (hp2 s hse).1 hcond⟩
            · rintro (h | ⟨hmem, hcond⟩)
              · refine ⟨Or.inl h, ?_⟩
                subst h
                exact ⟨hseen, firstAnswer_cons_self pid e es a0 hq⟩
              · by_cases hse : s = e.sender
                · refine ⟨Or.inl hse, ?_⟩
                  subst hse
                  exact ⟨hseen, firstAnswer_cons_self pid e es a0 hq⟩
                · exact ⟨Or.inr hmem, (hp2 s hse).2 hcond⟩
          rw [hsplit, Finset.card_insert_of_not_mem hnot]
          simp
        · have hsplit2 :
              ((insert e.sender (es.map (·.sender)).toFinset).filter
                (fun s => s ∉ seen ∧ firstAnswer pid (e :: es) s = some a))
              = ((es.map (·.sender)).toFinset.filter
                  (fun s => s ∉ e.sender :: seen ∧ firstAnswer pid es s = some a)) := by
            apply Finset.ext
            intro s
            simp only [Finset.mem_insert, Finset.mem_filter]
            constructor
            · rintro ⟨hmem | hmem, hcond⟩
              · subst hmem
                rw [firstAnswer_cons_self pid e es a0 hq] at hcond
                exact absurd hcond.2 (by simp [ha0])
              · by_cases hse : s = e.sender
                · subst hse
                  rw [firstAnswer_cons_self pid e es a0 hq] at hcond
                  exact absurd hcond.2 (by simp [ha0])
                · exact ⟨hmem, (hp2 s hse).1 hcond⟩
            · rintro ⟨hmem, hcond⟩
              have hse : s ≠ e.sender := by
                rintro rfl
                exact hcond.1 (List.mem_cons_self _ _)
              exact ⟨Or.inr hmem, (hp2 s hse).2 hcond⟩
          rw [hsplit2]
          simp [ha0]

lemma firstVotes_fst_mem_iff (pid : String) :
    ∀ (es : List MatrixEvent) (seen : List String) (s : String),
    s ∈ (firstVotes pid seen es).map Prod.fst
      ↔ (s ∉ seen ∧ ∃ e ∈ es, qualifies pid e = true ∧ e.sender = s) := by
  intro es
  induction es with
  | nil =>
    intro seen s
    simp [firstVotes]
  | cons e es ih =>
    intro seen s
    rcases hq : qualAnswer pid e with _ | a0
    · have hqf : qualifies pid e = false := by simp [qualifies, hq]
      simp only [firstVotes]
      rw [hq, ih seen s]
      constructor
      · rintro ⟨h1, e', he', hq', hs'⟩
        exact ⟨h1, e', List.mem_cons_of_mem _ he', hq', hs'⟩
      · rintro ⟨h1, e', he', hq', hs'⟩
        rcases List.mem_cons.1 he' with rfl | he''
        · rw [hqf] at hq'
          cases hq'
        · exact ⟨h1, e', he'', hq', hs'⟩
    · have hqt : qualifies pid e = true := by simp [qualifies, hq]
      by_cases hseen : e.sender ∈ seen
      · simp only [firstVotes]
        rw [hq]
        simp only [hseen, if_pos]
        rw [ih seen s]
        constructor
        · rintro ⟨h1, e', he', hq', hs'⟩
          exact ⟨h1, e', List.mem_cons_of_mem _ he', hq', hs'⟩
        · rintro ⟨h1, e', he', hq', hs'⟩
          rcases List.mem_cons.1 he' with rfl | he''
          · exact absurd (hs' ▸ hseen) h1
          · exact ⟨h1, e', he'', hq', hs'⟩
      · simp only [firstVotes]
        rw [hq]
        simp only [hseen, if_neg, not_false_iff, List.map_cons]
        constructor
        · intro h
          rcases List.mem_cons.1 h with rfl | h2
          · exact ⟨hseen, e, List.mem_cons_self _ _, hqt, rfl⟩
          · obtain ⟨h1, e', he', hq', hs'⟩ := (ih (e.sender :: seen) s).1 h2
            refine ⟨fun hmem => h1 (List.mem_cons_of_mem _ hmem), e',
              List.mem_cons_of_mem _ he', hq', hs'⟩
        · rintro ⟨h1, e', he', hq', hs'⟩
          rcases List.mem_cons.1 he' with rfl | he''
          · exact hs' ▸ List.mem_cons_self _ _
          · by_cases hse : s = e.sender
            · exact hse ▸ List.mem_cons_self _ _
            · refine List.mem_cons_of_mem _ ((ih (e.sender :: seen) s).2 ?_)
              refine ⟨?_, e', he'', hq', hs'⟩
              intro hmem
              rcases List.mem_cons.1 hmem with h' | h'
              · exact hse h'
              · exact h1 h'

/-- The filter predicate with a vacuous seen-set is just the
first-answer predicate. -/
lemma filter_empty_seen (pid a : String) (events : List MatrixEvent) (t : Finset String) :
    (t.filter (fun s => s ∉ ([] : List String) ∧ firstAnswer pid events s = some a))
      = t.filter (fun s => firstAnswer pid events s = some a) := by
  apply Finset.filter_congr
  intro s _
  simp

/-- C2: scanning the history newest-to-oldest, each final per-answer
count equals the number of distinct senders whose first qualifying
response in scan order (their most recent response relating to
`poll_id`) selected that answer; older events from already-counted
senders are discarded, and events not relating to `poll_id` never
count and never mark a sender (a sender is marked iff it has some
qualifying response). -/
theorem tally_counts_distinct_first_votes (pid : String) (events : List MatrixEvent)
    (st : TallyState) (h : processChunk pid initTally events = .ok st) :
    st.yes = specCount pid "yes" events ∧
    st.no = specCount pid "no" events ∧
    st.blank = specCount pid "blank" events ∧
    ∀ s, s ∈ st.users_voted ↔ ∃ e ∈ events, qualifies pid e = true ∧ e.sender = s := by
  obtain ⟨h1, h2, h3, h4⟩ := processChunk_firstVotes pid events initTally st h
  simp only [initTally] at h1 h2 h3 h4
  refine ⟨?_, ?_, ?_, ?_⟩
  · rw [h1, firstVotes_countP pid "yes" events [], filter_empty_seen]
    simp [specCount]
  · rw [h2, firstVotes_countP pid "no" events [], filter_empty_seen]
    simp [specCount]
  · rw [h3, firstVotes_countP pid "blank" events [], filter_empty_seen]
    simp [specCount]
  · intro s
    rw [h4]
    simp only [List.append_nil, List.mem_reverse]
    rw [firstVotes_fst_mem_iff pid events [] s]
    simp

/-! ### C1: the decision rule -/

/-- C1: whenever a decision is computed and published, it is accept iff
`yes_count >= min_yes_votes` and `no_count <= max_no_votes`; the
decision equals `decisionOf`, a function of only
`(yes_count, no_count, min_yes_votes, max_no_votes)` — in particular
it does not read `blank_count`. -/
theorem poll_decision_rule (cfg : VettingConfig) (pid : String) (env : EndPollEnv)
    (st : TallyState) (d : Bool)
    (h : (endPoll cfg pid env).decisionAttempt = some (st, d)) :
    (d = true ↔ (cfg.min_yes_votes ≤ (st.yes : Int) ∧ (st.no : Int) ≤ cfg.max_no_votes))
    ∧ d = decisionOf cfg st.yes st.no := by
  unfold endPoll at h
  by_cases hp : env.pollEndFails = true
  · simp [hp] at h
  · simp only [hp, Bool.false_eq_true, if_false, if_neg] at h
    rcases ho : (scanLoop pid initTally 20 env.pages).outcome with _ | c | st0
    · rw [ho] at h
      simp at h
    · rw [ho] at h
      simp at h
    · rw [ho] at h
      rcases hd : env.decisionSendId with _ | eid
      · rw [hd] at h
        simp at h
        obtain ⟨rfl, rfl⟩ := h
        refine ⟨?_, rfl⟩
        simp [decisionOf, Bool.and_eq_true, decide_eq_true_eq]
      · rw [hd] at h
        simp at h
        obtain ⟨rfl, rfl⟩ := h
        refine ⟨?_, rfl⟩
        simp [decisionOf, Bool.and_eq_true, decide_eq_true_eq]

/-- C1 witness: scenario A with thresholds `(3, 1)` computes decision
`true`, matching the rule at `(yes, no) = (3, 1)`. -/
theorem poll_decision_rule_witness :
    (true = true ↔ (sampleConfig.min_yes_votes ≤ (scenarioATally.yes : Int)
      ∧ (scenarioATally.no : Int) ≤ sampleConfig.max_no_votes))
    ∧ true = decisionOf sampleConfig scenarioATally.yes scenarioATally.no :=
  poll_decision_rule sampleConfig "poll1" scenarioAEnv scenarioATally true (by decide)

/-! ### C7: publish failure leaves the case open -/

/-- C7: when the tally completed but sending the decision result message
fails, no reaction is attempted and the database is not updated: the
stored case keeps `vote_ended = false`, its `poll_id`, and no
`decision_id`. -/
theorem publish_failure_keeps_case_open (cfg : VettingConfig) (pid : String)
    (env : EndPollEnv) (hfail : env.decisionSendId = none)
    (_hatt : ((endPoll cfg pid env).decisionAttempt).isSome = true) :
    (endPoll cfg pid env).dbUpdate = none
    ∧ (endPoll cfg pid env).reacted = false
    ∧ ∀ m db, applyDbUpdate (endPoll cfg pid env) m db = db := by
  clear _hatt
  unfold endPoll
  by_cases hp : env.pollEndFails = true
  · simp [hp, applyDbUpdate]
  · simp only [hp, Bool.false_eq_true, if_false, if_neg]
    rcases ho : (scanLoop pid initTally 20 env.pages).outcome with _ | c | st0 <;>
      simp [ho, hfail, applyDbUpdate]

/-- C7 witness: scenario A tally with a failing decision send leaves
everything untouched. -/
theorem publish_failure_keeps_case_open_witness :
    (endPoll sampleConfig "poll1" ⟨false, scenarioAEnv.pages, none⟩).dbUpdate = none
    ∧ (endPoll sampleConfig "poll1" ⟨false, scenarioAEnv.pages, none⟩).reacted = false
    ∧ ∀ m db, applyDbUpdate (endPoll sampleConfig "poll1" ⟨false, scenarioAEnv.pages, none⟩) m db = db :=
  publish_failure_keeps_case_open sampleConfig "poll1" ⟨false, scenarioAEnv.pages, none⟩
    rfl (by decide)

/-! ### C9: past deadlines fire immediately -/

/-- C9: a scheduled closure whose deadline
`voting_started_at + voting_window` is already past — the remaining
duration being zero or negative — sleeps for a zero delay, so the
close-poll action fires immediately instead of being dropped or
delayed. -/
theorem past_deadline_fires_immediately (votingTime startTime now : Int)
    (h : startTime + votingTime ≤ now) :
    waitForPollEndDelay votingTime startTime now = 0 := by
  have h2 : startTime + votingTime - now ≤ 0 := by omega
  unfold waitForPollEndDelay sleepDelay
  exact max_eq_right h2

/-- C9 witness: a poll started at 0 with a 600-second window, recovered
at time 1000, fires with zero delay. -/
theorem past_deadline_fires_immediately_witness :
    waitForPollEndDelay 600 0 1000 = 0 :=
  past_deadline_fires_immediately 600 0 1000 (by decide)

/-! ### C10: answers outside the fixed answer set -/

/-- C10: a first-seen qualifying response whose answer id is none of
`yes`/`no`/`blank` adds its sender to the counted set while changing no
per-answer count (the `vote_count[answer]` lookup raises `KeyError`
after `users_voted.add`), and every further qualifying response from
that sender — valid answer or not — is then discarded. -/
theorem unregistered_answer_marks_without_count (pid a : String) (st : TallyState)
    (e : MatrixEvent) (hq : qualAnswer pid e = some a)
    (hay : a ≠ "yes") (han : a ≠ "no") (hab : a ≠ "blank")
    (hs : e.sender ∉ st.users_voted) :
    processEvent pid st e = .ok ⟨st.yes, st.no, st.blank, e.sender :: st.users_voted⟩
    ∧ ∀ (e' : MatrixEvent) (a' : String), qualAnswer pid e' = some a' →
        e'.sender = e.sender →
        processEvent pid ⟨st.yes, st.no, st.blank, e.sender :: st.users_voted⟩ e'
          = .ok ⟨st.yes, st.no, st.blank, e.sender :: st.users_voted⟩ := by
  constructor
  · rw [processEvent_qual_new pid st e a hq hs]
    unfold addVote
    simp [hay, han, hab]
  · intro e' a' hq' hs'
    apply processEvent_qual_seen pid _ e' a' hq'
    rw [hs']
    exact List.mem_cons_self _ _

/-- C10 witness: sender A's most recent response answers `"weird"`; A
is marked with no count, and A's older `"yes"` response is
discarded. -/
theorem unregistered_answer_marks_without_count_witness :
    processEvent "poll1" initTally (sampleResp "e1" "A" "weird")
      = .ok ⟨0, 0, 0, ["A"]⟩
    ∧ ∀ (e' : MatrixEvent) (a' : String), qualAnswer "poll1" e' = some a' →
        e'.sender = (sampleResp "e1" "A" "weird").sender →
        processEvent "poll1" ⟨0, 0, 0, ["A"]⟩ e' = .ok ⟨0, 0, 0, ["A"]⟩ :=
  unregistered_answer_marks_without_count "poll1" "weird" initTally
    (sampleResp "e1" "A" "weird") rfl (by decide) (by decide) (by decide) (by decide)

/-! ### C6: malformed response events -/

/-- C6 counterexample: a response event relating to the poll whose
`answers` list is present but empty is not silently skipped — the
`answers[0]` subscript raises an uncaught `IndexError`, aborting the
scan. -/
theorem empty_answers_list_aborts :
    processChunk "poll1" initTally [emptyAnswersEvent] = .error .indexError
    ∧ (endPoll sampleConfig "poll1"
        ⟨false, [.page [emptyAnswersEvent]], some "dec1"⟩).crashed = true :=
  ⟨rfl, by decide⟩

/-- C6 (amended): a response event of the poll-response type whose
content is missing an expected dict field — the `m.relates_to` object,
its `event_id`, the response body object, or its `answers` key — is
silently skipped: no abort, no error, and no count changes; the
`KeyError` is caught. (An empty `answers` list, by contrast, aborts:
see the counterexample.) -/
theorem missing_field_skipped (pid : String) (st : TallyState) (e : MatrixEvent)
    (c : EventContent) (hu : e.isUnknown = true) (ht : e.type = respType)
    (hc : e.content = some c)
    (hmiss : c.relates_to = none
      ∨ c.relates_to = some ⟨none⟩
      ∨ c.poll_response = none
      ∨ (∃ b, c.poll_response = some b ∧ b.answers = none)) :
    processEvent pid st e = .ok st := by
  have key : eventCrash pid e = none ∧ qualAnswer pid e = none := by
    rcases hmiss with h | h | h | ⟨b, hb, hba⟩
    · constructor <;> simp [eventCrash, qualAnswer, hu, ht, hc, h]
    · constructor <;> simp [eventCrash, qualAnswer, hu, ht, hc, h]
    · rcases hrel : c.relates_to with _ | ⟨(_ | rid)⟩
      · constructor <;> simp [eventCrash, qualAnswer, hu, ht, hc, h, hrel]
      · constructor <;> simp [eventCrash, qualAnswer, hu, ht, hc, h, hrel]
      · by_cases hrid : rid = pid <;>
          constructor <;> simp [eventCrash, qualAnswer, hu, ht, hc, h, hrel, hrid]
    · rcases hrel : c.relates_to with _ | ⟨(_ | rid)⟩
      · constructor <;> simp [eventCrash, qualAnswer, hu, ht, hc, hb, hba, hrel]
      · constructor <;> simp [eventCrash, qualAnswer, hu, ht, hc, hb, hba, hrel]
      · by_cases hrid : rid = pid <;>
          constructor <;> simp [eventCrash, qualAnswer, hu, ht, hc, hb, hba, hrel, hrid]
  exact processEvent_of_skip pid st e key.1 key.2

/-- C6 witness: a response to the poll whose body has no `answers` key
is skipped without touching the state. -/
theorem missing_field_skipped_witness :
    processEvent "poll1" initTally missingAnswersEvent = .ok initTally :=
  missing_field_skipped "poll1" initTally missingAnswersEvent
    ⟨some ⟨some "poll1"⟩, some ⟨none⟩⟩ rfl rfl rfl
    (Or.inr (Or.inr (Or.inr ⟨⟨none⟩, rfl, rfl⟩)))

/-! ### C3 and C4: the paginated scan -/

lemma processChunk_ok_of_chunkOk (pid : String) :
    ∀ (es : List MatrixEvent) (st : TallyState), chunkOk pid es = true →
    ∃ st', processChunk pid st es = .ok st' := by
  intro es
  induction es with
  | nil =>
    intro st _
    exact ⟨st, rfl⟩
  | cons e es ih =>
    intro st hok
    simp only [chunkOk, List.all_cons, Bool.and_eq_true] at hok
    obtain ⟨he, hes⟩ := hok
    have hes' : chunkOk pid es = true := hes
    rcases hc : eventCrash pid e with _ | c
    · rcases hq : qualAnswer pid e with _ | a
      · obtain ⟨st', hst'⟩ := ih st hes'
        refine ⟨st', ?_⟩
        simp only [processChunk]
        rw [processEvent_of_skip pid st e hc hq]
        exact hst'
      · by_cases hs : e.sender ∈ st.users_voted
        · obtain ⟨st', hst'⟩ := ih st hes'
          refine ⟨st', ?_⟩
          simp only [processChunk]
          rw [processEvent_qual_seen pid st e a hq hs]
          exact hst'
        · obtain ⟨st', hst'⟩ :=
            ih (addVote { st with users_voted := e.sender :: st.users_voted } a) hes'
          refine ⟨st', ?_⟩
          simp only [processChunk]
          rw [processEvent_qual_new pid st e a hq hs]
          exact hst'
    · rw [hc] at he
      simp at he

lemma scanLoop_fetch_error (pid : String) :
    ∀ (k fuel : Nat) (pages : List PageResult) (st : TallyState),
    k < fuel → pagesCleanBefore pid pages k = true →
    pages.get? k = some .fetchError →
    (scanLoop pid st fuel pages).outcome = .fetchFailed
    ∧ (scanLoop pid st fuel pages).fetches = k + 1 := by
  intro k
  induction k with
  | zero =>
    intro fuel pages st hk _ hget
    rcases pages with _ | ⟨p, rest⟩
    · simp at hget
    · rcases fuel with _ | n
      · omega
      · simp only [List.get?] at hget
        injection hget with hp
        subst hp
        exact ⟨rfl, rfl⟩
  | succ k ih =>
    intro fuel pages st hk hclean hget
    rcases pages with _ | ⟨p, rest⟩
    · simp at hget
    · rcases fuel with _ | n
      · omega
      · simp only [pagesCleanBefore, List.take_succ_cons, List.all_cons,
          Bool.and_eq_true] at hclean
        obtain ⟨hp, hrest⟩ := hclean
        rcases p with _ | c
        · simp [cleanScanPage] at hp
        · simp only [cleanScanPage, Bool.and_eq_true, Bool.not_eq_true'] at hp
          obtain ⟨hcok, hnb⟩ := hp
          obtain ⟨st', hst'⟩ := processChunk_ok_of_chunkOk pid c st hcok
          have hget' : rest.get? k = some PageResult.fetchError := hget
          have hrec := ih n rest st' (by omega) hrest hget'
          simp only [scanLoop]
          rw [hst', hnb]
          simp only [Bool.false_eq_true, if_false, if_neg]
          exact ⟨hrec.1, by rw [hrec.2]⟩

lemma scanLoop_poll_found (pid : String) :
    ∀ (k fuel : Nat) (pages : List PageResult) (st : TallyState) (c : List MatrixEvent),
    k < fuel → pagesCleanBefore pid pages k = true →
    pages.get? k = some (.page c) → chunkOk pid c = true →
    c.any (fun e => e.event_id == pid) = true →
    (∃ st', (scanLoop pid st fuel pages).outcome = .completed st')
    ∧ (scanLoop pid st fuel pages).fetches = k + 1 := by
  intro k
  induction k with
  | zero =>
    intro fuel pages st c hk _ hget hcok hany
    rcases pages with _ | ⟨p, rest⟩
    · simp at hget
    · rcases fuel with _ | n
      · omega
      · simp only [List.get?] at hget
        injection hget with hp
        subst hp
        obtain ⟨st', hst'⟩ := processChunk_ok_of_chunkOk pid c st hcok
        simp only [scanLoop]
        rw [hst', hany]
        exact ⟨⟨st', rfl⟩, rfl⟩
  | succ k ih =>
    intro fuel pages st c hk hclean hget hcok hany
    rcases pages with _ | ⟨p, rest⟩
    · simp at hget
    · rcases fuel with _ | n
      · omega
      · simp only [pagesCleanBefore, List.take_succ_cons, List.all_cons,
          Bool.and_eq_true] at hclean
        obtain ⟨hp, hrest⟩ := hclean
        rcases p with _ | c0
        · simp [cleanScanPage] at hp
        · simp only [cleanScanPage, Bool.and_eq_true, Bool.not_eq_true'] at hp
          obtain ⟨hcok0, hnb0⟩ := hp
          obtain ⟨st', hst'⟩ := processChunk_ok_of_chunkOk pid c0 st hcok0
          have hget' : rest.get? k = some (PageResult.page c) := hget
          have hrec := ih n rest st' c (by omega) hrest hget' hcok hany
          simp only [scanLoop]
          rw [hst', hnb0]
          simp only [Bool.false_eq_true, if_false, if_neg]
          exact ⟨hrec.1, by rw [hrec.2]⟩

lemma scanLoop_fetches_le (pid : String) :
    ∀ (fuel : Nat) (pages : List PageResult) (st : TallyState),
    (scanLoop pid st fuel pages).fetches ≤ fuel := by
  intro fuel
  induction fuel with
  | zero =>
    intro pages st
    simp [scanLoop]
  | succ n ih =>
    intro pages st
    rcases pages with _ | ⟨p, rest⟩
    · simp [scanLoop]
    · rcases p with _ | c
      · simp [scanLoop]
      · simp only [scanLoop]
        rcases h : processChunk pid st c with cc | st'
        · simp
        · by_cases hb : c.any (fun e => e.event_id == pid) = true
          · simp [hb]
          · simp only [Bool.not_eq_true] at hb
            simp only [hb, Bool.false_eq_true, if_false, if_neg]
            have := ih rest st'
            simpa using Nat.succ_le_succ this

lemma scanLoop_inspected_le (pid : String) (bound : Nat) :
    ∀ (fuel : Nat) (pages : List PageResult) (st : TallyState),
    (∀ c, PageResult.page c ∈ pages → c.length ≤ bound) →
    (scanLoop pid st fuel pages).inspected ≤ bound * fuel := by
  intro fuel
  induction fuel with
  | zero =>
    intro pages st _
    simp [scanLoop]
  | succ n ih =>
    intro pages st hlen
    rcases pages with _ | ⟨p, rest⟩
    · simp [scanLoop]
    · rcases p with _ | c
      · simp [scanLoop]
      · have hc : c.length ≤ bound := hlen c (List.mem_cons_self _ _)
        have hrest : ∀ c0, PageResult.page c0 ∈ rest → c0.length ≤ bound :=
          fun c0 hm => hlen c0 (List.mem_cons_of_mem _ hm)
        have hone : bound ≤ bound * (n + 1) :=
          Nat.le_mul_of_pos_right bound (Nat.succ_pos n)
        simp only [scanLoop]
        rcases h : processChunk pid st c with cc | st'
        · simp only []
          omega
        · by_cases hb : c.any (fun e => e.event_id == pid) = true
          · simp only [hb, if_pos]
            omega
          · simp only [Bool.not_eq_true] at hb
            simp only [hb, Bool.false_eq_true, if_false, if_neg]
            have hih := ih rest st' hrest
            have : bound * (n + 1) = bound * n + bound := by ring
            omega

/-- C4: with the hard-coded fuel of 20, the scan performs at most 20
page fetches; when every fetched page holds at most 20 events (the
request limit), at most 400 events are inspected; and as soon as a
reached page contains the event whose id equals `poll_id`, the scan
completes right after counting that page, with no further fetch. -/
theorem scan_page_cap_and_early_stop (pid : String) (st : TallyState)
    (pages : List PageResult) :
    (scanLoop pid st 20 pages).fetches ≤ 20
    ∧ ((∀ c, PageResult.page c ∈ pages → c.length ≤ 20) →
        (scanLoop pid st 20 pages).inspected ≤ 400)
    ∧ ∀ (k : Nat) (c : List MatrixEvent), k < 20 →
        pagesCleanBefore pid pages k = true →
        pages.get? k = some (.page c) → chunkOk pid c = true →
        c.any (fun e => e.event_id == pid) = true →
        (∃ st', (scanLoop pid st 20 pages).outcome = .completed st')
        ∧ (scanLoop pid st 20 pages).fetches = k + 1 := by
  refine ⟨scanLoop_fetches_le pid 20 pages st, ?_, ?_⟩
  · intro h
    have := scanLoop_inspected_le pid 20 20 pages st h
    omega
  · intro k c hk hclean hget hcok hany
    exact scanLoop_poll_found pid k 20 pages st c hk hclean hget hcok hany

/-- C4 witness: a single page containing scenario A's responses and the
poll start event is fully counted and stops the scan after one
fetch. -/
theorem scan_page_cap_and_early_stop_witness :
    ((scanLoop "poll1" initTally 20 scenarioAEnv.pages).inspected ≤ 400)
    ∧ ((∃ st', (scanLoop "poll1" initTally 20 scenarioAEnv.pages).outcome
          = .completed st')
       ∧ (scanLoop "poll1" initTally 20 scenarioAEnv.pages).fetches = 0 + 1) :=
  ⟨(scan_page_cap_and_early_stop "poll1" initTally scenarioAEnv.pages).2.1
     (fun c hc => by
       simp only [scenarioAEnv, List.mem_singleton] at hc
       injection hc with h2
       subst h2
       decide),
   (scan_page_cap_and_early_stop "poll1" initTally scenarioAEnv.pages).2.2 0
     (scenarioAEvents ++ [samplePollStartEvent]) (by decide) (by decide) (by decide)
     (by decide) (by decide)⟩

/-- C3: when a page fetch fails after `k` clean pages, the closure
aborts there: exactly `k + 1` fetches happen (no further page is
requested), the failure text is sent, no decision is computed or
published, no reaction is made, and the stored case is unchanged. -/
theorem fetch_failure_aborts_closure (cfg : VettingConfig) (pid : String)
    (env : EndPollEnv) (k : Nat) (hp : env.pollEndFails = false) (hk : k < 20)
    (hclean : pagesCleanBefore pid env.pages k = true)
    (herr : env.pages.get? k = some .fetchError) :
    (endPoll cfg pid env).sentUnableText = true
    ∧ (endPoll cfg pid env).fetches = k + 1
    ∧ (endPoll cfg pid env).decisionAttempt = none
    ∧ (endPoll cfg pid env).reacted = false
    ∧ (endPoll cfg pid env).dbUpdate = none
    ∧ ∀ m db, applyDbUpdate (endPoll cfg pid env) m db = db := by
  obtain ⟨ho, hf⟩ := scanLoop_fetch_error pid k 20 env.pages initTally hk hclean herr
  unfold endPoll
  simp only [hp, Bool.false_eq_true, if_false, if_neg]
  rw [ho]
  simp [applyDbUpdate, hf]

/-- C3 witness: scenario D — the second page fetch fails; two fetches
happen, the failure is reported, nothing is decided and the case stays
open. -/
theorem fetch_failure_aborts_closure_witness :
    (endPoll sampleConfig "poll1" scenarioDEnv).sentUnableText = true
    ∧ (endPoll sampleConfig "poll1" scenarioDEnv).fetches = 1 + 1
    ∧ (endPoll sampleConfig "poll1" scenarioDEnv).decisionAttempt = none
    ∧ (endPoll sampleConfig "poll1" scenarioDEnv).reacted = false
    ∧ (endPoll sampleConfig "poll1" scenarioDEnv).dbUpdate = none
    ∧ ∀ m db, applyDbUpdate (endPoll sampleConfig "poll1" scenarioDEnv) m db = db :=
  fetch_failure_aborts_closure sampleConfig "poll1" scenarioDEnv 1 rfl (by decide)
    (by decide) (by decide)

/-! ### C5: startup recovery -/

lemma countP_key_unique (q : VettingRow → Bool) :
    ∀ (db : List VettingRow) (r : VettingRow),
    (db.map (fun x => x.mxid)).Nodup → r ∈ db →
    db.countP (fun x => x.mxid == r.mxid && q x) = if q r then 1 else 0 := by
  intro db
  induction db with
  | nil =>
    intro r _ hr
    cases hr
  | cons a l ih =>
    intro r hnd hr
    rw [List.map_cons, List.nodup_cons] at hnd
    obtain ⟨hna, hndl⟩ := hnd
    rw [List.countP_cons]
    rcases List.mem_cons.1 hr with rfl | hrl
    · have hzero : l.countP (fun x => x.mxid == r.mxid && q x) = 0 := by
        rw [List.countP_eq_zero]
        intro x hx
        simp only [Bool.and_eq_true, beq_iff_eq, not_and]
        intro hmx
        exact absurd (hmx ▸ List.mem_map_of_mem (fun y => y.mxid) hx) hna
      rw [hzero]
      simp
    · have hne : a.mxid ≠ r.mxid := by
        intro hEq
        exact hna (hEq ▸ List.mem_map_of_mem (fun y => y.mxid) hrl)
      have hpa : (a.mxid == r.mxid && q a) = false := by
        simp [hne]
      rw [hpa]
      simpa using ih r hndl hrl

lemma start_all_timers_countP (votingTime : Int) (db : List VettingRow) (m : String) :
    (start_all_timers votingTime db).countP (fun s => s.mxid == m)
      = db.countP (fun x => x.mxid == m && (!x.vote_ended && x.voting_start_time.isSome)) := by
  unfold start_all_timers
  rw [List.countP_map, List.countP_filter, List.countP_filter]
  apply List.countP_congr
  intro x _
  simp only [Function.comp]
  by_cases h1 : x.mxid = m <;> by_cases h2 : x.vote_ended
    <;> by_cases h3 : x.voting_start_time.isSome = true
    <;> simp [h1, h2, h3]

/-- C5: after a restart, the recovery pass schedules exactly one
deferred closure for each case whose poll is started (equivalently:
`voting_start_time` set, given the invariant tying it to `poll_id`)
and not yet ended, with deadline `voting_started_at + voting_time`,
and none at all for a case with no poll or an ended vote. -/
theorem recovery_schedules_pending_only (votingTime : Int) (db : List VettingRow)
    (hnd : (db.map (fun r => r.mxid)).Nodup)
    (hinv : ∀ x ∈ db, x.poll_event_id.isSome = x.voting_start_time.isSome)
    (r : VettingRow) (hr : r ∈ db) :
    (∀ t, r.voting_start_time = some t → r.vote_ended = false →
        (start_all_timers votingTime db).countP (fun s => s.mxid == r.mxid) = 1
        ∧ ∀ s ∈ start_all_timers votingTime db, s.mxid = r.mxid →
            s.deadline = t + votingTime ∧ s.poll_event_id = r.poll_event_id)
    ∧ ((r.poll_event_id = none ∨ r.vote_ended = true) →
        (start_all_timers votingTime db).countP (fun s => s.mxid == r.mxid) = 0) := by
  have hkey := countP_key_unique (fun x => !x.vote_ended && x.voting_start_time.isSome)
    db r hnd hr
  constructor
  · intro t ht hv
    constructor
    · rw [start_all_timers_countP, hkey]
      simp [ht, hv]
    · intro s hs hmx
      unfold start_all_timers at hs
      rw [List.mem_map] at hs
      obtain ⟨x, hxmem, hfx⟩ := hs
      have hx1 := List.mem_of_mem_filter hxmem
      have hxdb : x ∈ db := List.mem_of_mem_filter hx1
      have hxm : x.mxid = r.mxid := by
        rw [← hmx, ← hfx]
      have hxr : x = r := by
        have hinj := List.inj_on_of_nodup_map hnd
        exact hinj hxdb hr hxm
      subst hxr
      rw [← hfx]
      simp [ht]
  · intro hcase
    rw [start_all_timers_countP, hkey]
    rcases hcase with hpoll | hended
    · have hs : r.voting_start_time.isSome = false := by
        have := hinv r hr
        rw [hpoll] at this
        simpa using this.symm
      simp [hs]
    · simp [hended]

/-- C5 witness: a three-case store — a pending case, a case with no
poll, and an ended case — schedules exactly one closure, for the
pending case, at `100 + 600`. -/
theorem recovery_schedules_pending_only_witness :
    ((∀ t, (⟨"@p:x", some "!rp", some "pollP", some 100, false, none, some 5⟩
        : VettingRow).voting_start_time = some t →
      (⟨"@p:x", some "!rp", some "pollP", some 100, false, none, some 5⟩
        : VettingRow).vote_ended = false →
        (start_all_timers 600 sampleDb).countP (fun s => s.mxid == "@p:x") = 1
        ∧ ∀ s ∈ start_all_timers 600 sampleDb, s.mxid = "@p:x" →
            s.deadline = t + 600 ∧ s.poll_event_id = some "pollP")
    ∧ (((⟨"@p:x", some "!rp", some "pollP", some 100, false, none, some 5⟩
        : VettingRow).poll_event_id = none
        ∨ (⟨"@p:x", some "!rp", some "pollP", some 100, false, none, some 5⟩
        : VettingRow).vote_ended = true) →
        (start_all_timers 600 sampleDb).countP (fun s => s.mxid == "@p:x") = 0)) :=
  recovery_schedules_pending_only 600 sampleDb (by decide) (by decide)
    ⟨"@p:x", some "!rp", some "pollP", some 100, false, none, some 5⟩ (by decide)

/-! ### C8: duplicate case creation -/

/-- C8: an attempt to start vetting for a candidate that already has a
stored record is rejected as a duplicate: the reply goes to the
invoking room, `room_create` is never called, and the store is
returned unchanged. -/
theorem duplicate_candidate_rejected (validate : String → Bool)
    (vettingRoomId candidate : String) (rest : List String)
    (db : List VettingRow) (roomCreateResult : Option String) (now : Int)
    (hv : validate candidate = true)
    (hdup : ∃ r ∈ db, r.mxid = candidate) :
    ∃ rid, start_vetting validate vettingRoomId vettingRoomId
        (candidate :: rest) db roomCreateResult now
      = ⟨.duplicate rid, true, false, db⟩ := by
  have hfind : (db.find? (fun r => r.mxid == candidate)).isSome := by
    rw [List.find?_isSome]
    obtain ⟨r, hrm, hre⟩ := hdup
    exact ⟨r, hrm, by simp [hre]⟩
  rcases hf : db.find? (fun r => r.mxid == candidate) with _ | row
  · rw [hf] at hfind
    simp at hfind
  · refine ⟨row.room_id, ?_⟩
    simp [start_vetting, hv, hf]

/-- C8 witness: starting vetting for the already-stored candidate
`"@p:x"` is rejected as a duplicate with no store change. -/
theorem duplicate_candidate_rejected_witness :
    ∃ rid, start_vetting (fun _ => true) "!vet:x" "!vet:x" ["@p:x"] sampleDb none 7
      = ⟨.duplicate rid, true, false, sampleDb⟩ :=
  duplicate_candidate_rejected (fun _ => true) "!vet:x" "@p:x" [] sampleDb none 7
    rfl ⟨⟨"@p:x", some "!rp", some "pollP", some 100, false, none, some 5⟩,
      by decide, rfl⟩

/-- C2 witness: scenario A's scan yields counts `(3, 1, 0)`, matching
the distinct-sender first-vote counts, with exactly A, B, C, D
marked. -/
theorem tally_counts_distinct_first_votes_witness :
    scenarioATally.yes = specCount "poll1" "yes" scenarioAEvents
    ∧ scenarioATally.no = specCount "poll1" "no" scenarioAEvents
    ∧ scenarioATally.blank = specCount "poll1" "blank" scenarioAEvents
    ∧ ∀ s, s ∈ scenarioATally.users_voted
        ↔ ∃ e ∈ scenarioAEvents, qualifies "poll1" e = true ∧ e.sender = s :=
  tally_counts_distinct_first_votes "poll1" scenarioAEvents scenarioATally rfl

end VettingBot
